import Mathlib

/-!
Verification of the client-side news pipeline of `crypto-news-app`.

The repository ships two variants of the same `NewsManager` class:
* the *partitioned* variant (`src/static/script.js`): two category lists
  (`cryptoNewsList`, `generalNewsList`) with `maxNewsCount = 5` per category,
  and a `getTimeAgo` that manually splits `"YYYY-MM-DD hh:mm:ss"` strings;
* the *unified* variant (`src/unnamed/part_000`): one `newsList` with
  `maxNewsCount = 50`, and a `getTimeAgo` that hands strings to the host's
  `Date` constructor.

Below, each JS function is embedded as a pure Lean function; the DOM side
effects (`innerHTML` writes, stats text) are embedded as the values the cycle
would write, and a thrown-and-caught exception is embedded as an explicit
error value.  JS `Math.floor(a / b)` on exact values is integer floor
division, `Int.fdiv`.
-/

/-- A `news.published` value: either a date-time string or a native
timestamp value (milliseconds since the epoch, in the local frame). -/
inductive Published where
  | str (s : String)
  | num (ms : Int)
  deriving DecidableEq, Repr

/-- A news item as delivered by the `/api/news` endpoint. -/
structure NewsItem where
  link : String
  title : String
  translated_title : Option String
  description : Option String
  translated_description : Option String
  source : String
  published : Published
  deriving DecidableEq, Repr

/-- Convenience constructor for concrete items in witnesses. -/
def mkItem (link : String) (published : Published) : NewsItem :=
  ⟨link, "title", none, none, none, "src", published⟩

/-- JS `Math.floor(a / b)`: floor division on integers. -/
def jsFloorDiv (a b : Int) : Int := Int.fdiv a b

/-- `getTimeAgo` of the partitioned variant (`script.js` lines 196-211), as a
function of `diffMs = now - newsTime`:
`diffSeconds = Math.floor(diffMs / 1000)`, `diffMins = Math.floor(diffSeconds / 60)`,
then the four-way threshold chain.  `"방금"` is the "just now" label,
`"N분 전"` / `"N시간 전"` / `"N일 전"` are "N minutes/hours/days ago". -/
def labelOfDiff_part (diffMs : Int) : String :=
  let diffSeconds := jsFloorDiv diffMs 1000
  let diffMins := jsFloorDiv diffSeconds 60
  if diffMins < 1 then "방금"
  else if diffMins < 60 then toString diffMins ++ "분 전"
  else
    let diffHours := jsFloorDiv diffMins 60
    if diffHours < 24 then toString diffHours ++ "시간 전"
    else
      let diffDays := jsFloorDiv diffHours 24
      toString diffDays ++ "일 전"

/-- `getTimeAgo` of the unified variant (`part_000` lines 162-172), as a
function of `diffMs`: `diffMins = Math.floor(diffMs / 60000)`, then the same
threshold chain. -/
def labelOfDiff_uni (diffMs : Int) : String :=
  let diffMins := jsFloorDiv diffMs 60000
  if diffMins < 1 then "방금"
  else if diffMins < 60 then toString diffMins ++ "분 전"
  else
    let diffHours := jsFloorDiv diffMins 60
    if diffHours < 24 then toString diffHours ++ "시간 전"
    else
      let diffDays := jsFloorDiv diffHours 24
      toString diffDays ++ "일 전"

/-- The tier of the relative-time label: 0 = "just now", 1 = minutes,
2 = hours, 3 = days, read off the same threshold chain. -/
def labelTier (diffMs : Int) : Nat :=
  let diffMins := jsFloorDiv diffMs 60000
  if diffMins < 1 then 0
  else if diffMins < 60 then 1
  else if jsFloorDiv diffMins 60 < 24 then 2
  else 3

lemma jsFloorDiv_eq_ediv (a b : Int) (hb : 0 ≤ b) : jsFloorDiv a b = a / b :=
  Int.fdiv_eq_ediv a hb

/-- Dividing milliseconds by 1000 and then by 60 (partitioned variant) is
dividing by 60000 (unified variant). -/
lemma minutes_eq (d : Int) :
    jsFloorDiv (jsFloorDiv d 1000) 60 = jsFloorDiv d 60000 := by
  rw [jsFloorDiv_eq_ediv _ _ (by decide), jsFloorDiv_eq_ediv _ _ (by decide),
    jsFloorDiv_eq_ediv _ _ (by decide)]
  omega

/-- The two variants compute the same label for the same difference. -/
lemma labelOfDiff_part_eq_uni (d : Int) :
    labelOfDiff_part d = labelOfDiff_uni d := by
  simp only [labelOfDiff_part, labelOfDiff_uni, minutes_eq]

/-! ### Timestamp parsing -/

/-- JS `str.split(sep)` for a one-character separator, over the char list of
the string.  `"".split(sep)` is `[""]`; empty fields are kept. -/
def splitOnChar (sep : Char) : List Char → List (List Char)
  | [] => [[]]
  | c :: cs =>
    match splitOnChar sep cs with
    | [] => [[c]]
    | g :: gs => if c = sep then [] :: g :: gs else (c :: g) :: gs

/-- Decimal value of a digit character. -/
def digitVal (c : Char) : Nat := c.toNat - 48

/-- Decimal value of a digit string, most significant digit first. -/
def digitsVal (cs : List Char) : Nat :=
  cs.foldl (fun n c => n * 10 + digitVal c) 0

/-- JS `Number(str)` restricted to the shapes reaching it here: the empty
string is `0`, a nonempty all-digit string is its decimal value, anything
else is `NaN` (modelled as `none`). -/
def jsNumber (cs : List Char) : Option Nat :=
  if cs.isEmpty then some 0
  else if cs.all Char.isDigit then some (digitsVal cs)
  else none

/-- Days from 1970-01-01 to the civil date `y-m-d` (the standard
days-from-civil algorithm); models the calendar arithmetic of the host's
`new Date(year, month - 1, day, ...)` for in-range components. -/
def civilDays (y m d : Int) : Int :=
  let y' := if m ≤ 2 then y - 1 else y
  let era := (if 0 ≤ y' then y' else y' - 399) / 400
  let yoe := y' - era * 400
  let mp := if 2 < m then m - 3 else m + 9
  let doy := (153 * mp + 2) / 5 + d - 1
  let doe := yoe * 365 + yoe / 4 - yoe / 100 + doy
  era * 146097 + doe - 719468

/-- Local-frame epoch milliseconds of `new Date(y, mo - 1, d, h, mi, s)`:
built directly from the six numeric components, with no timezone offset
applied (`published` and `now` live in the same local frame). -/
def localMs (y mo d h mi s : Nat) : Int :=
  (civilDays y mo d * 86400 + (h : Int) * 3600 + (mi : Int) * 60 + s) * 1000

/-- A thrown JS exception, as caught by a surrounding try/catch. -/
inductive JsError where
  | typeError
  deriving DecidableEq, Repr

/-- Component `i` of a `.split(..).map(Number)` array: `none` models both a
missing entry (`undefined`) and a non-numeric one (`NaN`); either makes the
constructed `Date` invalid. -/
def numAt (l : List (List Char)) (i : Nat) : Option Nat :=
  match l.get? i with
  | some cs => jsNumber cs
  | none => none

/-- The `new Date(year, month - 1, day, hour, minute, second)` step applied
to the destructured `.split(..).map(Number)` arrays: any missing or
non-numeric component makes the date invalid (`none`). -/
def parseParts (dp tp : List (List Char)) : Option Int :=
  match numAt dp 0, numAt dp 1, numAt dp 2, numAt tp 0, numAt tp 1, numAt tp 2 with
  | some y, some mo, some d, some h, some mi, some sec =>
    some (localMs y mo d h mi sec)
  | _, _, _, _, _, _ => none

/-- The string branch of the partitioned `getTimeAgo` (`script.js` lines
184-191): `published.split(' ')` destructured into `datePart` and `timePart`.
When the string holds no space, `timePart` is `undefined` and
`timePart.split(':')` throws a `TypeError`.  Otherwise the numeric components
feed `new Date(year, month - 1, day, hour, minute, second)`; the `none`
result is an invalid date (`NaN` timestamp). -/
def parsePublishedString_part (s : String) : Except JsError (Option Int) :=
  match splitOnChar ' ' s.data with
  | [] => .error .typeError
  | [_] => .error .typeError
  | datePart :: timePart :: _ =>
    .ok (parseParts (splitOnChar '-' datePart) (splitOnChar ':' timePart))

/-- Models the host's `new Date(string)` (unified variant, `part_000` line
161) on strings of the shape `"YYYY-MM-DD hh:mm:ss"`: the major engines all
parse this non-ISO shape as local wall-clock time.  String shapes outside
this format are not exercised by the theorems below (mapped to the invalid
date here). -/
def jsDateParse (s : String) : Option Int :=
  match splitOnChar ' ' s.data with
  | [datePart, timePart] =>
    match splitOnChar '-' datePart, splitOnChar ':' timePart with
    | [cy, cmo, cd], [ch, cmi, csec] =>
      match jsNumber cy, jsNumber cmo, jsNumber cd,
          jsNumber ch, jsNumber cmi, jsNumber csec with
      | some y, some mo, some d, some h, some mi, some sec =>
        some (localMs y mo d h mi sec)
      | _, _, _, _, _, _ => none
    | _, _ => none
  | _ => none

/-- The news timestamp in the unified variant: `new Date(published)`; a
native timestamp value passes through unchanged. -/
def newsTime_uni : Published → Option Int
  | .str s => jsDateParse s
  | .num t => some t

/-- Unified `getTimeAgo` (`part_000` lines 159-173).  An invalid date gives
`NaN` milliseconds; `NaN` fails every `<` comparison, so the chain falls
through to the day branch and prints `NaN`. -/
def getTimeAgo_uni (nowMs : Int) (published : Published) : String :=
  match newsTime_uni published with
  | some t => labelOfDiff_uni (nowMs - t)
  | none => "NaN일 전"

/-- Partitioned `getTimeAgo` (`script.js` lines 179-212): the string path can
throw; the native path uses the value as-is. -/
def getTimeAgo_part (nowMs : Int) : Published → Except JsError String
  | .str s =>
    (parsePublishedString_part s).map fun t? =>
      match t? with
      | some t => labelOfDiff_part (nowMs - t)
      | none => "NaN일 전"
  | .num t => .ok (labelOfDiff_part (nowMs - t))

lemma splitOnChar_ne_nil (sep : Char) (l : List Char) : splitOnChar sep l ≠ [] := by
  cases l with
  | nil => simp [splitOnChar]
  | cons c cs =>
    cases h : splitOnChar sep cs with
    | nil => simp [splitOnChar, h]
    | cons g gs =>
      simp only [splitOnChar, h]
      split <;> simp

lemma splitOnChar_eq_single {sep : Char} :
    ∀ {l : List Char}, (∀ c ∈ l, c ≠ sep) → splitOnChar sep l = [l]
  | [], _ => rfl
  | c :: cs, h => by
    have hc : c ≠ sep := h c (by simp)
    have ih := splitOnChar_eq_single (l := cs) fun x hx => h x (by simp [hx])
    simp [splitOnChar, ih, hc]

lemma splitOnChar_append {sep : Char} :
    ∀ {a : List Char} (b : List Char), (∀ c ∈ a, c ≠ sep) →
      splitOnChar sep (a ++ sep :: b) = a :: splitOnChar sep b
  | [], b, _ => by
    cases hb : splitOnChar sep b with
    | nil => exact absurd hb (splitOnChar_ne_nil sep b)
    | cons g gs => simp [splitOnChar, hb]
  | x :: a', b, h => by
    have hx : x ≠ sep := h x (by simp)
    have ih := splitOnChar_append (a := a') b fun c hc => h c (by simp [hc])
    simp [splitOnChar, ih, hx]

/-! ### Fetcher -/

/-- JS truthiness of an optional boolean field (`data.success`): absent
(`undefined`) and `false` are falsy. -/
def jsTruthy : Option Bool → Bool
  | some b => b
  | none => false

/-- `response.ok`: HTTP status in the 2xx range. -/
def jsResponseOk (status : Nat) : Bool := 200 ≤ status && status ≤ 299

/-- Response body of the partitioned endpoint. -/
structure PartBody where
  success : Option Bool
  crypto_news : Option (List NewsItem)
  general_news : Option (List NewsItem)
  deriving DecidableEq, Repr

/-- Response body of the unified endpoint. -/
structure UniBody where
  success : Option Bool
  news : Option (List NewsItem)
  deriving DecidableEq, Repr

/-- What one `fetch('/api/news')` round can yield, as the client sees it:
the network call rejects, or an HTTP response arrives whose JSON body either
fails to parse (`none`) or parses to a body value. -/
inductive FetchResponse (β : Type) where
  | networkError
  | response (status : Nat) (body : Option β)
  deriving DecidableEq, Repr

/-- `fetchNewsFromCollector`, partitioned variant (`script.js` lines 82-101):
a non-2xx status throws, a body-parse failure throws, both throws are caught
locally and return `null`; a parsed body with falsy `success` also returns
`null`; otherwise the body object itself is returned. -/
def fetchNewsFromCollector_part : FetchResponse PartBody → Option PartBody
  | .networkError => none
  | .response status body =>
    if jsResponseOk status then
      match body with
      | none => none
      | some data => if jsTruthy data.success then some data else none
    else none

/-- `fetchNewsFromCollector`, unified variant (`part_000` lines 91-110): the
same failure handling, except the no-data value is `[]` and the success
condition is `data.success && data.news` (an empty array is truthy,
`undefined` is not). -/
def fetchNewsFromCollector_uni : FetchResponse UniBody → List NewsItem
  | .networkError => []
  | .response status body =>
    if jsResponseOk status then
      match body with
      | none => []
      | some data =>
        if jsTruthy data.success then
          match data.news with
          | some l => l
          | none => []
        else []
    else []

/-! ### Rendering -/

/-- One rendered news entry: display title (`translated_title || title`),
relative-time label, "new" badge, click-through link. -/
structure Rendered where
  title : String
  timeAgo : String
  isNew : Bool
  link : String
  deriving DecidableEq, Repr

/-- `news.translated_title || news.title`: JS `||` falls through on the
empty string too. -/
def displayTitle (it : NewsItem) : String :=
  match it.translated_title with
  | some t => if t = "" then it.title else t
  | none => it.title

/-- `maxNewsCount` of the partitioned variant (per category). -/
def maxNewsCount_part : Nat := 5

/-- `maxNewsCount` of the unified variant. -/
def maxNewsCount_uni : Nat := 50

/-- JS `array.map(f)` where `f` can throw: items are visited left to right
and the first throw aborts the whole map. -/
def mapME {α β : Type} (f : α → Except JsError β) : List α → Except JsError (List β)
  | [] => .ok []
  | x :: xs => do
    let b ← f x
    let bs ← mapME f xs
    pure (b :: bs)

/-- `displayGeneralNews` / `displayCryptoNews` (`script.js` lines 111-171):
slice the first `maxNewsCount` items, render each with its `getTimeAgo`
label (which can throw), badge the first 2 as new.  An empty slice renders
the category's own empty-state message, embedded as `.ok []`. -/
def renderCategory_part (nowMs : Int) (l : List NewsItem) :
    Except JsError (List Rendered) :=
  mapME (fun p =>
      (getTimeAgo_part nowMs p.2.published).map fun ta =>
        ⟨displayTitle p.2, ta, p.1 < 2, p.2.link⟩)
    (l.take maxNewsCount_part).enum

/-- The partitioned store: the two category lists. -/
structure PartStore where
  cryptoNewsList : List NewsItem
  generalNewsList : List NewsItem
  deriving DecidableEq, Repr

/-- `displayNews`, partitioned (`script.js` lines 103-109): general section
first, then crypto; a throw in either aborts the whole render. -/
def displayNews_part (nowMs : Int) (st : PartStore) :
    Except JsError (List Rendered × List Rendered) := do
  let g ← renderCategory_part nowMs st.generalNewsList
  let c ← renderCategory_part nowMs st.cryptoNewsList
  pure (g, c)

/-- What the partitioned cycle leaves on screen. -/
inductive PartDisplay where
  | lists (general crypto : List Rendered)
  | error
  deriving DecidableEq, Repr

/-- Observable outcome of one partitioned cycle: the store afterwards, the
display surface, and whether (and with what count) `updateStats` ran. -/
structure PartCycleOut where
  store : PartStore
  display : PartDisplay
  statsUpdated : Bool
  statsCount : Option Nat
  deriving DecidableEq, Repr

/-- `collectAndDisplayNews`, partitioned (`script.js` lines 49-80).  With
truthy `newsData` both lists are replaced (`crypto_news || []`,
`general_news || []`, with no truncation), then `displayNews()` and
`updateStats()` run.  With `newsData` null and both lists empty the code
calls `this.showNoNewsMessage()` — a method this class never defines — so a
`TypeError` is thrown and the catch paints the error message; with prior
data the unchanged store is re-rendered and stats rerun.  A render throw
likewise lands in the catch. -/
def collectAndDisplayNews_part (nowMs : Int) (st : PartStore)
    (resp : FetchResponse PartBody) : PartCycleOut :=
  match fetchNewsFromCollector_part resp with
  | some newsData =>
    let st' : PartStore :=
      ⟨newsData.crypto_news.getD [], newsData.general_news.getD []⟩
    match displayNews_part nowMs st' with
    | .ok (g, c) =>
      ⟨st', .lists g c, true,
        some (st'.cryptoNewsList.length + st'.generalNewsList.length)⟩
    | .error _ => ⟨st', .error, false, none⟩
  | none =>
    if st.cryptoNewsList.length = 0 ∧ st.generalNewsList.length = 0 then
      ⟨st, .error, false, none⟩
    else
      match displayNews_part nowMs st with
      | .ok (g, c) =>
        ⟨st, .lists g c, true,
          some (st.cryptoNewsList.length + st.generalNewsList.length)⟩
      | .error _ => ⟨st, .error, false, none⟩

/-- The unified store: the news list and the seen-links set. -/
structure UniStore where
  newsList : List NewsItem
  sentNewsLinks : List String
  deriving DecidableEq, Repr

/-- `sentNewsLinks.add(news.link)` for each incoming item (a JS `Set`:
insertion order, no duplicates). -/
def addSeen (seen : List String) (l : List NewsItem) : List String :=
  l.foldl (fun s it => if it.link ∈ s then s else s ++ [it.link]) seen

/-- The store update of the unified cycle (`part_000` lines 55-67): replace
`newsList` with the incoming list, record every link in the seen set, then
truncate to `maxNewsCount` when over it. -/
def updateStore_uni (st : UniStore) (newNews : List NewsItem) : UniStore :=
  let seen := addSeen st.sentNewsLinks newNews
  let nl := if newNews.length > maxNewsCount_uni
    then newNews.take maxNewsCount_uni else newNews
  ⟨nl, seen⟩

/-- What the unified cycle leaves on screen. -/
inductive UniDisplay where
  | list (items : List Rendered)
  | noNews
  deriving DecidableEq, Repr

/-- `displayNews`, unified (`part_000` lines 112-151): renders the whole
stored list (already capped), badges the first 3, shows the no-news message
when the list is empty.  The unified `getTimeAgo` never throws. -/
def displayNews_uni (nowMs : Int) (l : List NewsItem) : UniDisplay :=
  if l.length = 0 then .noNews
  else .list (l.enum.map fun p =>
    ⟨displayTitle p.2, getTimeAgo_uni nowMs p.2.published, p.1 < 3, p.2.link⟩)

/-- Observable outcome of one unified cycle. -/
structure UniCycleOut where
  store : UniStore
  display : UniDisplay
  statsUpdated : Bool
  statsCount : Option Nat
  deriving DecidableEq, Repr

/-- `collectAndDisplayNews`, unified (`part_000` lines 48-89): a nonempty
fetched list replaces the store (capped) and is displayed with stats; an
empty fetched list leaves the store alone and either shows the no-news
message (empty store — `updateStats` is not run) or re-renders the prior
list and reruns stats. -/
def collectAndDisplayNews_uni (nowMs : Int) (st : UniStore)
    (resp : FetchResponse UniBody) : UniCycleOut :=
  let newNews := fetchNewsFromCollector_uni resp
  if newNews.length > 0 then
    let st' := updateStore_uni st newNews
    ⟨st', displayNews_uni nowMs st'.newsList, true, some st'.newsList.length⟩
  else
    if st.newsList.length = 0 then
      ⟨st, .noNews, false, none⟩
    else
      ⟨st, displayNews_uni nowMs st.newsList, true, some st.newsList.length⟩

/-! ### Scheduler timing model -/

/-- `updateInterval`: 30000 ms. -/
def periodMs : Nat := 30000

/-- Start time of cycle `k` under `startNewsCollection` (`script.js` lines
39-47, `part_000` lines 38-46): cycle 0 runs immediately at time 0; only
after it completes (taking `dur 0` ms) is `setInterval` installed, so tick
`k` fires at `dur 0 + periodMs * k` — the host timer fires on schedule
whether or not the previous async callback has resolved, and the code takes
no reentrancy guard against that. -/
def cycleStart (dur : Nat → Nat) : Nat → Nat
  | 0 => 0
  | k + 1 => dur 0 + periodMs * (k + 1)

/-- Cycle `k` (taking `dur k` ms to complete) is running at time `t`. -/
def cycleActive (dur : Nat → Nat) (k t : Nat) : Prop :=
  cycleStart dur k ≤ t ∧ t < cycleStart dur k + dur k

instance (dur : Nat → Nat) (k t : Nat) : Decidable (cycleActive dur k t) := by
  unfold cycleActive; infer_instance

/-! ### Helper lemmas -/

lemma labelOfDiff_uni_just (d : Int) (h : d < 60000) :
    labelOfDiff_uni d = "방금" := by
  have hm : jsFloorDiv d 60000 < 1 := by
    rw [jsFloorDiv_eq_ediv _ _ (by decide)]; omega
  simp [labelOfDiff_uni, hm]

lemma labelOfDiff_uni_minutes (d : Int) (h1 : 60000 ≤ d) (h2 : d < 3600000) :
    labelOfDiff_uni d = toString (jsFloorDiv d 60000) ++ "분 전" := by
  have e := jsFloorDiv_eq_ediv d 60000 (by decide)
  have hm1 : ¬ jsFloorDiv d 60000 < 1 := by rw [e]; omega
  have hm2 : jsFloorDiv d 60000 < 60 := by rw [e]; omega
  simp [labelOfDiff_uni, hm1, hm2]

lemma labelOfDiff_uni_hours (d : Int) (h1 : 3600000 ≤ d) (h2 : d < 86400000) :
    labelOfDiff_uni d =
      toString (jsFloorDiv (jsFloorDiv d 60000) 60) ++ "시간 전" := by
  have e := jsFloorDiv_eq_ediv d 60000 (by decide)
  have e2 := jsFloorDiv_eq_ediv (jsFloorDiv d 60000) 60 (by decide)
  have hm1 : ¬ jsFloorDiv d 60000 < 1 := by rw [e]; omega
  have hm2 : ¬ jsFloorDiv d 60000 < 60 := by rw [e]; omega
  have hh : jsFloorDiv (jsFloorDiv d 60000) 60 < 24 := by rw [e2, e]; omega
  simp [labelOfDiff_uni, hm1, hm2, hh]

lemma labelOfDiff_uni_days (d : Int) (h1 : 86400000 ≤ d) :
    labelOfDiff_uni d =
      toString (jsFloorDiv (jsFloorDiv (jsFloorDiv d 60000) 60) 24) ++ "일 전" := by
  have e := jsFloorDiv_eq_ediv d 60000 (by decide)
  have e2 := jsFloorDiv_eq_ediv (jsFloorDiv d 60000) 60 (by decide)
  have hm1 : ¬ jsFloorDiv d 60000 < 1 := by rw [e]; omega
  have hm2 : ¬ jsFloorDiv d 60000 < 60 := by rw [e]; omega
  have hh : ¬ jsFloorDiv (jsFloorDiv d 60000) 60 < 24 := by rw [e2, e]; omega
  simp [labelOfDiff_uni, hm1, hm2, hh]

lemma labelTier_monotone {d1 d2 : Int} (h : d1 ≤ d2) :
    labelTier d1 ≤ labelTier d2 := by
  have e1 := jsFloorDiv_eq_ediv d1 60000 (by decide)
  have e2 := jsFloorDiv_eq_ediv d2 60000 (by decide)
  have f1 := jsFloorDiv_eq_ediv (jsFloorDiv d1 60000) 60 (by decide)
  have f2 := jsFloorDiv_eq_ediv (jsFloorDiv d2 60000) 60 (by decide)
  simp only [labelTier]
  rw [f1, f2, e1, e2]
  split_ifs <;> omega

/-- Exhaustive shape of the unified label by tier. -/
lemma labelOfDiff_uni_shape (d : Int) :
    (labelTier d = 0 ∧ labelOfDiff_uni d = "방금") ∨
    (labelTier d = 1 ∧
      labelOfDiff_uni d = toString (jsFloorDiv d 60000) ++ "분 전") ∨
    (labelTier d = 2 ∧
      labelOfDiff_uni d =
        toString (jsFloorDiv (jsFloorDiv d 60000) 60) ++ "시간 전") ∨
    (labelTier d = 3 ∧
      labelOfDiff_uni d =
        toString (jsFloorDiv (jsFloorDiv (jsFloorDiv d 60000) 60) 24) ++ "일 전") := by
  simp only [labelTier, labelOfDiff_uni]
  split_ifs <;> simp

lemma mapME_ok_length {α β : Type} (f : α → Except JsError β) :
    ∀ (l : List α) (r : List β), mapME f l = .ok r → r.length = l.length := by
  intro l
  induction l with
  | nil => intro r hr; cases hr; rfl
  | cons x xs ih =>
    intro r hr
    cases hfx : f x with
    | error e => rw [mapME, hfx] at hr; cases hr
    | ok b =>
      cases hxs : mapME f xs with
      | error e => rw [mapME, hfx, hxs] at hr; cases hr
      | ok bs =>
        rw [mapME, hfx, hxs] at hr
        cases hr
        simp [ih bs hxs]

lemma mapME_error_of_mem {α β : Type} (f : α → Except JsError β) :
    ∀ (l : List α) (x : α), x ∈ l → f x = .error .typeError →
      mapME f l = .error .typeError := by
  intro l
  induction l with
  | nil => intro x hx; cases hx
  | cons y ys ih =>
    intro x hx hfx
    rcases List.mem_cons.mp hx with rfl | hmem
    · rw [mapME, hfx]; rfl
    · cases hfy : f y with
      | error e => rw [mapME, hfy]; cases e; rfl
      | ok b => rw [mapME, hfy, ih x hmem hfx]; rfl

lemma isDigit_ne_sep (c : Char) (h : c.isDigit = true) :
    c ≠ ' ' ∧ c ≠ '-' ∧ c ≠ ':' := by
  refine ⟨?_, ?_, ?_⟩ <;> rintro rfl <;> revert h <;> decide

/-- A nonempty all-digit character string denoting the value `n`. -/
def DenotesNat (cs : List Char) (n : Nat) : Prop :=
  cs ≠ [] ∧ cs.all Char.isDigit = true ∧ digitsVal cs = n

instance (cs : List Char) (n : Nat) : Decidable (DenotesNat cs n) := by
  unfold DenotesNat; infer_instance

lemma jsNumber_denotes {cs : List Char} {n : Nat} (h : DenotesNat cs n) :
    jsNumber cs = some n := by
  obtain ⟨hne, hdig, hval⟩ := h
  cases cs with
  | nil => exact absurd rfl hne
  | cons x xs => simp [jsNumber, hdig, hval]

/-! ### Claim theorems -/

/-- Concrete item used by witnesses. -/
def itemA : NewsItem := mkItem "a" (.num 0)

/-- **C2.**  For every published timestamp `t` and reference time `now ≥ t`
the label follows the exclusive thresholds with first match winning:
under 1 minute "just now" (`"방금"`), under 60 minutes the floored minute
count, under 24 hours the floored hour count, otherwise the floored day
count with no larger tier (the shape disjunction); the six boundary cases
hold exactly, the tier is monotone non-decreasing in `now - t`, and both
variants agree on every difference. -/
theorem c2_label_thresholds :
    (∀ t now : Int, t ≤ now → now - t < 60000 →
      getTimeAgo_uni now (.num t) = "방금" ∧
      getTimeAgo_part now (.num t) = .ok "방금") ∧
    (∀ t now : Int, 60000 ≤ now - t → now - t < 3600000 →
      getTimeAgo_uni now (.num t) =
        toString (jsFloorDiv (now - t) 60000) ++ "분 전" ∧
      getTimeAgo_part now (.num t) =
        .ok (toString (jsFloorDiv (now - t) 60000) ++ "분 전")) ∧
    (∀ t now : Int, 3600000 ≤ now - t → now - t < 86400000 →
      getTimeAgo_uni now (.num t) =
        toString (jsFloorDiv (jsFloorDiv (now - t) 60000) 60) ++ "시간 전") ∧
    (∀ t now : Int, 86400000 ≤ now - t →
      getTimeAgo_uni now (.num t) =
        toString (jsFloorDiv (jsFloorDiv (jsFloorDiv (now - t) 60000) 60) 24)
          ++ "일 전") ∧
    (labelOfDiff_uni 59000 = "방금" ∧ labelOfDiff_part 59000 = "방금") ∧
    (labelOfDiff_uni 60000 = "1분 전" ∧ labelOfDiff_part 60000 = "1분 전") ∧
    labelOfDiff_uni 3540000 = "59분 전" ∧
    labelOfDiff_uni 3600000 = "1시간 전" ∧
    labelOfDiff_uni 86340000 = "23시간 전" ∧
    (labelOfDiff_uni 86400000 = "1일 전" ∧ labelOfDiff_part 86400000 = "1일 전") ∧
    (∀ d1 d2 : Int, d1 ≤ d2 → labelTier d1 ≤ labelTier d2) ∧
    (∀ d : Int,
      (labelTier d = 0 ∧ labelOfDiff_uni d = "방금") ∨
      (labelTier d = 1 ∧
        labelOfDiff_uni d = toString (jsFloorDiv d 60000) ++ "분 전") ∨
      (labelTier d = 2 ∧ labelOfDiff_uni d =
        toString (jsFloorDiv (jsFloorDiv d 60000) 60) ++ "시간 전") ∨
      (labelTier d = 3 ∧ labelOfDiff_uni d =
        toString (jsFloorDiv (jsFloorDiv (jsFloorDiv d 60000) 60) 24) ++ "일 전")) ∧
    (∀ d : Int, labelOfDiff_part d = labelOfDiff_uni d) := by
  refine ⟨?_, ?_, ?_, ?_, by decide, by decide, by decide, by decide, by decide,
    by decide, fun d1 d2 h => labelTier_monotone h, labelOfDiff_uni_shape,
    labelOfDiff_part_eq_uni⟩
  · intro t now _ h2
    have hu := labelOfDiff_uni_just (now - t) h2
    exact ⟨by simp [getTimeAgo_uni, newsTime_uni, hu],
      by rw [show getTimeAgo_part now (.num t) =
          .ok (labelOfDiff_part (now - t)) from rfl, labelOfDiff_part_eq_uni, hu]⟩
  · intro t now h1 h2
    have hu := labelOfDiff_uni_minutes (now - t) h1 h2
    exact ⟨by simp [getTimeAgo_uni, newsTime_uni, hu],
      by rw [show getTimeAgo_part now (.num t) =
          .ok (labelOfDiff_part (now - t)) from rfl, labelOfDiff_part_eq_uni, hu]⟩
  · intro t now h1 h2
    have hu := labelOfDiff_uni_hours (now - t) h1 h2
    simp [getTimeAgo_uni, newsTime_uni, hu]
  · intro t now h1
    have hu := labelOfDiff_uni_days (now - t) h1
    simp [getTimeAgo_uni, newsTime_uni, hu]

/-- Witness for C2 at a concrete boundary input: 59 seconds before `now`
renders as "just now". -/
theorem c2_label_thresholds_witness :
    getTimeAgo_uni 59000 (.num 0) = "방금" :=
  (c2_label_thresholds.1 0 59000 (by decide) (by decide)).1

/-- **C10.**  A published timestamp strictly later than `now` yields the
"just now" label in both variants: the negative difference floors to a
minute count below 1, and the first branch wins. -/
theorem c10_future_timestamp_just_now :
    ∀ now t : Int, now < t →
      getTimeAgo_uni now (.num t) = "방금" ∧
      getTimeAgo_part now (.num t) = .ok "방금" ∧
      jsFloorDiv (now - t) 60000 < 1 := by
  intro now t h
  have hd : now - t < 60000 := by omega
  have hu := labelOfDiff_uni_just (now - t) hd
  refine ⟨by simp [getTimeAgo_uni, newsTime_uni, hu], ?_, ?_⟩
  · rw [show getTimeAgo_part now (.num t) =
      .ok (labelOfDiff_part (now - t)) from rfl, labelOfDiff_part_eq_uni, hu]
  · rw [jsFloorDiv_eq_ediv _ _ (by decide)]; omega

/-- Witness for C10: an item dated 1 ms into the future shows "just now". -/
theorem c10_future_timestamp_just_now_witness :
    getTimeAgo_uni 0 (.num 1) = "방금" :=
  (c10_future_timestamp_just_now 0 1 (by decide)).1

/-- **C5.**  Every failure of the fetch boundary collapses to the no-data
value and nothing escapes to the caller (the embedding is a total function):
a rejected network call, a non-2xx status, a body-parse failure, and a
`success` flag that is false or absent all return `null` (partitioned) or
`[]` (unified). -/
theorem c5_fetch_noData_on_all_failures :
    (fetchNewsFromCollector_part .networkError = none) ∧
    (∀ status body, jsResponseOk status = false →
      fetchNewsFromCollector_part (.response status body) = none) ∧
    (∀ status, fetchNewsFromCollector_part (.response status none) = none) ∧
    (∀ status data, jsTruthy data.success = false →
      fetchNewsFromCollector_part (.response status (some data)) = none) ∧
    (fetchNewsFromCollector_uni .networkError = []) ∧
    (∀ status body, jsResponseOk status = false →
      fetchNewsFromCollector_uni (.response status body) = []) ∧
    (∀ status, fetchNewsFromCollector_uni (.response status none) = []) ∧
    (∀ status data, data.success = some false ∨ data.success = none →
      fetchNewsFromCollector_uni (.response status (some data)) = []) := by
  refine ⟨rfl, ?_, ?_, ?_, rfl, ?_, ?_, ?_⟩
  · intro status body h
    simp [fetchNewsFromCollector_part, h]
  · intro status
    by_cases hok : jsResponseOk status <;>
      simp [fetchNewsFromCollector_part, hok]
  · intro status data h
    by_cases hok : jsResponseOk status <;>
      simp [fetchNewsFromCollector_part, hok, h]
  · intro status body h
    simp [fetchNewsFromCollector_uni, h]
  · intro status
    by_cases hok : jsResponseOk status <;>
      simp [fetchNewsFromCollector_uni, hok]
  · intro status data h
    rcases h with h | h <;> by_cases hok : jsResponseOk status <;>
      simp [fetchNewsFromCollector_uni, hok, jsTruthy, h]

/-- Witness for C5: an HTTP 500 with unparsed body returns the no-data
value in both variants. -/
theorem c5_fetch_noData_on_all_failures_witness :
    fetchNewsFromCollector_part (.response 500 none) = none ∧
    fetchNewsFromCollector_uni (.response 500 none) = [] :=
  ⟨c5_fetch_noData_on_all_failures.2.1 500 none (by decide),
    c5_fetch_noData_on_all_failures.2.2.2.2.2.1 500 none (by decide)⟩

/-- **C3.**  When the fetcher returns its no-data value (`null` partitioned,
`[]` unified — produced by transport failure, `success:false`, and, in the
unified variant, an empty item list), the cycle leaves the store exactly as
it was, and when the prior store was non-empty the unchanged store is
rendered again; a `{success:false}` body yields the no-data value. -/
theorem c3_noData_store_unchanged :
    (∀ nowMs st resp, fetchNewsFromCollector_part resp = none →
      (collectAndDisplayNews_part nowMs st resp).store = st ∧
      (¬(st.cryptoNewsList = [] ∧ st.generalNewsList = []) →
        ∀ g c, displayNews_part nowMs st = .ok (g, c) →
          (collectAndDisplayNews_part nowMs st resp).display = .lists g c)) ∧
    (∀ nowMs st resp, fetchNewsFromCollector_uni resp = [] →
      (collectAndDisplayNews_uni nowMs st resp).store = st ∧
      (st.newsList ≠ [] →
        (collectAndDisplayNews_uni nowMs st resp).display =
          displayNews_uni nowMs st.newsList)) ∧
    (∀ status crypto general, fetchNewsFromCollector_part
      (.response status (some ⟨some false, crypto, general⟩)) = none) ∧
    (∀ status news, fetchNewsFromCollector_uni
      (.response status (some ⟨some false, news⟩)) = []) := by
  refine ⟨?_, ?_, ?_, ?_⟩
  · intro nowMs st resp h
    constructor
    · simp only [collectAndDisplayNews_part, h]
      split
      · rfl
      · split <;> rfl
    · intro hne g c hgc
      have hcond : ¬(st.cryptoNewsList.length = 0 ∧
          st.generalNewsList.length = 0) := by
        simpa [List.length_eq_zero] using hne
      simp only [collectAndDisplayNews_part, h, if_neg hcond, hgc]
  · intro nowMs st resp h
    have hlen : ¬ (fetchNewsFromCollector_uni resp).length > 0 := by simp [h]
    constructor
    · simp only [collectAndDisplayNews_uni, if_neg hlen]
      split <;> rfl
    · intro hne
      have hz : ¬ st.newsList.length = 0 := by
        simpa [List.length_eq_zero] using hne
      simp only [collectAndDisplayNews_uni, if_neg hlen, if_neg hz]
  · intro status crypto general
    by_cases hok : jsResponseOk status <;>
      simp [fetchNewsFromCollector_part, hok, jsTruthy]
  · intro status news
    by_cases hok : jsResponseOk status <;>
      simp [fetchNewsFromCollector_uni, hok, jsTruthy]

/-- Witness for C3: a `{success:false}` response against a one-item store
leaves the partitioned store unchanged and re-renders the unified one. -/
theorem c3_noData_store_unchanged_witness :
    (collectAndDisplayNews_part 0 ⟨[itemA], []⟩
      (.response 200 (some ⟨some false, none, none⟩))).store = ⟨[itemA], []⟩ ∧
    (collectAndDisplayNews_uni 0 ⟨[itemA], []⟩
      (.response 200 (some ⟨some false, some []⟩))).display =
        displayNews_uni 0 ([itemA] : List NewsItem) :=
  ⟨(c3_noData_store_unchanged.1 0 ⟨[itemA], []⟩
      (.response 200 (some ⟨some false, none, none⟩)) (by decide)).1,
    (c3_noData_store_unchanged.2.1 0 ⟨[itemA], []⟩
      (.response 200 (some ⟨some false, some []⟩)) (by decide)).2 (by decide)⟩

/-- **C6 counterexample.**  A first-ever cycle with an empty store and
`{success:true, news:[]}` shows the no-news message but `updateStats` does
not run (`statsUpdated = false`), so stats are not recomputed on every
cycle, contrary to the claim. -/
theorem c6_stats_counterexample :
    (collectAndDisplayNews_uni 0 ⟨[], []⟩
      (.response 200 (some ⟨some true, some []⟩))).statsUpdated = false ∧
    (collectAndDisplayNews_uni 0 ⟨[], []⟩
      (.response 200 (some ⟨some true, some []⟩))).display = .noNews := by
  decide

/-- **C6 (amended).**  The unified cycle recomputes stats exactly when data
arrived or the prior store was non-empty; a no-data cycle against an empty
store shows the no-news message with stats untouched.  In the partitioned
variant a no-data cycle against an empty store shows the *error* message
(the code calls the undefined `showNoNewsMessage`, whose `TypeError` is
caught) and likewise skips stats. -/
theorem c6_stats_updated_iff :
    (∀ nowMs st resp,
      (collectAndDisplayNews_uni nowMs st resp).statsUpdated = true ↔
        (fetchNewsFromCollector_uni resp ≠ [] ∨ st.newsList ≠ [])) ∧
    (∀ nowMs seen,
      (collectAndDisplayNews_uni nowMs ⟨[], seen⟩
        (.response 200 (some ⟨some true, some []⟩))).display = .noNews) ∧
    (∀ nowMs st resp, fetchNewsFromCollector_part resp = none →
      st.cryptoNewsList = [] → st.generalNewsList = [] →
      (collectAndDisplayNews_part nowMs st resp).display = .error ∧
      (collectAndDisplayNews_part nowMs st resp).statsUpdated = false) := by
  refine ⟨?_, ?_, ?_⟩
  · intro nowMs st resp
    cases hn : fetchNewsFromCollector_uni resp with
    | nil =>
      cases hs : st.newsList with
      | nil => simp [collectAndDisplayNews_uni, hn, hs]
      | cons y ys => simp [collectAndDisplayNews_uni, hn, hs]
    | cons x xs => simp [collectAndDisplayNews_uni, hn]
  · intro nowMs seen
    rfl
  · intro nowMs st resp h h1 h2
    have hcond : st.cryptoNewsList.length = 0 ∧ st.generalNewsList.length = 0 := by
      simp [h1, h2]
    refine ⟨?_, ?_⟩ <;> simp only [collectAndDisplayNews_part, h, if_pos hcond]

/-- Witness for C6 (amended): a failed fetch against a non-empty unified
store still reruns the stats. -/
theorem c6_stats_updated_iff_witness :
    (collectAndDisplayNews_uni 0 ⟨[itemA], []⟩
      (.response 500 none)).statsUpdated = true :=
  (c6_stats_updated_iff.1 0 ⟨[itemA], []⟩ (.response 500 none)).mpr
    (Or.inr (by decide))

/-- **C8 counterexample.**  A successful payload of `k = 0` items fed to the
unified update does *not* leave the store equal to those 0 items: the empty
list short-circuits the replace branch and the prior one-item store
survives. -/
theorem c8_empty_payload_counterexample :
    (collectAndDisplayNews_uni 0 ⟨[itemA], []⟩
      (.response 200 (some ⟨some true, some []⟩))).store.newsList ≠ [] := by
  decide

/-- **C8 (amended).**  A *non-empty* successful payload of `k` items
replaces the unified store with exactly those `k` items in delivered order
when `k ≤ maxNewsCount`, and with exactly the first `maxNewsCount` of them
otherwise; an empty payload leaves the stored list unchanged. -/
theorem c8_roundtrip_replacement :
    (∀ st newNews, newNews ≠ ([] : List NewsItem) →
      (updateStore_uni st newNews).newsList =
        if newNews.length ≤ maxNewsCount_uni then newNews
        else newNews.take maxNewsCount_uni) ∧
    (∀ nowMs st resp newNews, fetchNewsFromCollector_uni resp = newNews →
      newNews ≠ [] →
      (collectAndDisplayNews_uni nowMs st resp).store =
        updateStore_uni st newNews) ∧
    (∀ nowMs st resp, fetchNewsFromCollector_uni resp = [] →
      (collectAndDisplayNews_uni nowMs st resp).store.newsList = st.newsList) := by
  refine ⟨?_, ?_, ?_⟩
  · intro st newNews _
    simp only [updateStore_uni]
    rcases le_or_lt newNews.length maxNewsCount_uni with hle | hlt
    · rw [if_neg (by omega), if_pos hle]
    · rw [if_pos (by omega), if_neg (by omega)]
  · intro nowMs st resp newNews h hne
    have hpos : (fetchNewsFromCollector_uni resp).length > 0 := by
      rw [h]; exact List.length_pos.mpr hne
    simp only [collectAndDisplayNews_uni, h]
    rw [if_pos (List.length_pos.mpr hne)]
  · intro nowMs st resp h
    have hlen : ¬ (fetchNewsFromCollector_uni resp).length > 0 := by simp [h]
    simp only [collectAndDisplayNews_uni, if_neg hlen]
    split <;> rfl

/-- Witness for C8 (amended): a one-item payload is stored exactly. -/
theorem c8_roundtrip_replacement_witness :
    (updateStore_uni ⟨[], []⟩ [itemA]).newsList =
      if ([itemA] : List NewsItem).length ≤ maxNewsCount_uni then [itemA]
      else ([itemA] : List NewsItem).take maxNewsCount_uni :=
  c8_roundtrip_replacement.1 ⟨[], []⟩ [itemA] (by decide)

/-- The unified store after running one cycle per scheduled step from a
given initial store, each step supplying its clock value and response. -/
def runCycles_uni (init : UniStore) :
    List (Int × FetchResponse UniBody) → UniStore
  | [] => init
  | step :: rest =>
    runCycles_uni (collectAndDisplayNews_uni step.1 init step.2).store rest

lemma updateStore_uni_length_le (st : UniStore) (l : List NewsItem) :
    (updateStore_uni st l).newsList.length ≤ maxNewsCount_uni := by
  simp only [updateStore_uni]
  split
  · simp [List.length_take]
  · omega

lemma cycle_uni_store_le (nowMs : Int) (st : UniStore)
    (resp : FetchResponse UniBody)
    (h : st.newsList.length ≤ maxNewsCount_uni) :
    (collectAndDisplayNews_uni nowMs st resp).store.newsList.length ≤
      maxNewsCount_uni := by
  simp only [collectAndDisplayNews_uni]
  split
  · exact updateStore_uni_length_le st _
  · split <;> exact h

lemma runCycles_uni_le :
    ∀ (steps : List (Int × FetchResponse UniBody)) (init : UniStore),
      init.newsList.length ≤ maxNewsCount_uni →
      (runCycles_uni init steps).newsList.length ≤ maxNewsCount_uni
  | [], _, h => h
  | step :: rest, init, h =>
    runCycles_uni_le rest _ (cycle_uni_store_le step.1 init step.2 h)

/-- Six crypto items, one more than the partitioned per-category cap. -/
def sixItems : List NewsItem :=
  [mkItem "1" (.num 0), mkItem "2" (.num 0), mkItem "3" (.num 0),
    mkItem "4" (.num 0), mkItem "5" (.num 0), mkItem "6" (.num 0)]

/-- **C1 counterexample.**  A successful partitioned payload of 6 crypto
items leaves `cryptoNewsList` holding all 6 after the cycle — the
partitioned variant never truncates the store, so "each category list has
length at most 5" fails. -/
theorem c1_partitioned_store_uncapped_counterexample :
    ¬ (collectAndDisplayNews_part 0 ⟨[], []⟩ (.response 200
      (some ⟨some true, some sixItems, some []⟩))).store.cryptoNewsList.length
        ≤ maxNewsCount_part := by
  decide

/-- **C1 (amended).**  The unified store holds at most `maxNewsCount = 50`
items after every cycle of every execution started from the empty store; a
single unified cycle from any store either caps the list at 50 or leaves it
unchanged.  In the partitioned variant only the *displayed* slice of each
category is capped at `maxNewsCount = 5`; the stored lists themselves are
whatever the payload delivered (see the counterexample). -/
theorem c1_store_cap :
    (∀ steps : List (Int × FetchResponse UniBody),
      (runCycles_uni ⟨[], []⟩ steps).newsList.length ≤ maxNewsCount_uni) ∧
    (∀ nowMs st resp,
      (collectAndDisplayNews_uni nowMs st resp).store.newsList.length ≤
        maxNewsCount_uni ∨
      (collectAndDisplayNews_uni nowMs st resp).store.newsList = st.newsList) ∧
    (∀ nowMs l r, renderCategory_part nowMs l = .ok r →
      r.length ≤ maxNewsCount_part) := by
  refine ⟨fun steps => runCycles_uni_le steps _ (by decide), ?_, ?_⟩
  · intro nowMs st resp
    simp only [collectAndDisplayNews_uni]
    split
    · exact Or.inl (updateStore_uni_length_le st _)
    · split <;> exact Or.inr rfl
  · intro nowMs l r h
    rw [mapME_ok_length _ _ _ h, List.enum_length]
    exact List.length_take_le _ _

/-- Witness for C1 (amended): rendering an empty category yields at most 5
entries. -/
theorem c1_store_cap_witness :
    ([] : List Rendered).length ≤ maxNewsCount_part :=
  c1_store_cap.2.2 0 [] [] rfl

lemma parse_spaceless_error (s : String) (h : ∀ c ∈ s.data, c ≠ ' ') :
    parsePublishedString_part s = .error .typeError := by
  simp only [parsePublishedString_part, splitOnChar_eq_single h]

lemma render_spaceless_error (nowMs : Int) (l : List NewsItem)
    (it : NewsItem) (s : String) (hmem : it ∈ l.take maxNewsCount_part)
    (hpub : it.published = .str s) (hns : ∀ c ∈ s.data, c ≠ ' ') :
    renderCategory_part nowMs l = .error .typeError := by
  have hmem' : it ∈ (l.take maxNewsCount_part).enum.map Prod.snd := by
    rw [List.enum_map_snd]; exact hmem
  obtain ⟨p, hp, hpe⟩ := List.mem_map.mp hmem'
  refine mapME_error_of_mem _ _ p hp ?_
  have herr : getTimeAgo_part nowMs p.2.published = .error .typeError := by
    rw [hpe, hpub]
    show (parsePublishedString_part s).map _ = .error .typeError
    rw [parse_spaceless_error s hns]
    rfl
  show (getTimeAgo_part nowMs p.2.published).map _ = .error .typeError
  rw [herr]
  rfl

/-- **C9.**  The partitioned `getTimeAgo` is not total on strings: any
`published` string holding no space (a bare date `"2025-10-29"`, an ISO
`"T"`-separated timestamp) leaves `timePart` undefined, so
`timePart.split(':')` throws a `TypeError`; the throw aborts the rendering
of that whole category list, and the cycle attempting it ends in the error
display with stats skipped. -/
theorem c9_spaceless_string_throws :
    (∀ s : String, (∀ c ∈ s.data, c ≠ ' ') →
      parsePublishedString_part s = .error .typeError) ∧
    (∀ nowMs (l : List NewsItem) it s, it ∈ l.take maxNewsCount_part →
      it.published = .str s → (∀ c ∈ s.data, c ≠ ' ') →
      renderCategory_part nowMs l = .error .typeError) ∧
    (∀ nowMs st resp newsData,
      fetchNewsFromCollector_part resp = some newsData →
      (∃ it s, it ∈ (newsData.general_news.getD []).take maxNewsCount_part ∧
        it.published = .str s ∧ ∀ c ∈ s.data, c ≠ ' ') →
      (collectAndDisplayNews_part nowMs st resp).display = .error ∧
      (collectAndDisplayNews_part nowMs st resp).statsUpdated = false) := by
  refine ⟨parse_spaceless_error, render_spaceless_error, ?_⟩
  intro nowMs st resp newsData h hex
  obtain ⟨it, s, hmem, hpub, hns⟩ := hex
  have hg : renderCategory_part nowMs (newsData.general_news.getD []) =
      .error .typeError :=
    render_spaceless_error nowMs _ it s hmem hpub hns
  have hd : displayNews_part nowMs
      ⟨newsData.crypto_news.getD [], newsData.general_news.getD []⟩ =
      .error .typeError := by
    simp only [displayNews_part, hg]
    rfl
  refine ⟨?_, ?_⟩ <;> simp only [collectAndDisplayNews_part, h, hd]

/-- Witness for C9: the bare date string `"2025-10-29"` throws. -/
theorem c9_spaceless_string_throws_witness :
    parsePublishedString_part "2025-10-29" = .error .typeError :=
  c9_spaceless_string_throws.1 "2025-10-29" (by decide)

lemma digits_no_seps {cs : List Char} (h : cs.all Char.isDigit = true) :
    ∀ c ∈ cs, c ≠ ' ' ∧ c ≠ '-' ∧ c ≠ ':' := by
  intro c hc
  exact isDigit_ne_sep c (by simpa using List.all_eq_true.mp h c hc)

lemma splitFormat (dy dmo dd dh dmi ds : List Char)
    (hy : dy.all Char.isDigit = true) (hmo : dmo.all Char.isDigit = true)
    (hd : dd.all Char.isDigit = true) (hh : dh.all Char.isDigit = true)
    (hmi : dmi.all Char.isDigit = true) (hs : ds.all Char.isDigit = true) :
    splitOnChar ' ' (dy ++ '-' :: (dmo ++ '-' ::
        (dd ++ ' ' :: (dh ++ ':' :: (dmi ++ ':' :: ds))))) =
      [dy ++ '-' :: (dmo ++ '-' :: dd), dh ++ ':' :: (dmi ++ ':' :: ds)] ∧
    splitOnChar '-' (dy ++ '-' :: (dmo ++ '-' :: dd)) = [dy, dmo, dd] ∧
    splitOnChar ':' (dh ++ ':' :: (dmi ++ ':' :: ds)) = [dh, dmi, ds] := by
  have ny := digits_no_seps hy
  have nmo := digits_no_seps hmo
  have nd := digits_no_seps hd
  have nh := digits_no_seps hh
  have nmi := digits_no_seps hmi
  have ns := digits_no_seps hs
  have hdate_nospace : ∀ c ∈ dy ++ '-' :: (dmo ++ '-' :: dd), c ≠ ' ' := by
    intro c hc
    simp only [List.mem_append, List.mem_cons] at hc
    rcases hc with hc | hc | hc | hc | hc
    · exact (ny c hc).1
    · subst hc; decide
    · exact (nmo c hc).1
    · subst hc; decide
    · exact (nd c hc).1
  have htime_nospace : ∀ c ∈ dh ++ ':' :: (dmi ++ ':' :: ds), c ≠ ' ' := by
    intro c hc
    simp only [List.mem_append, List.mem_cons] at hc
    rcases hc with hc | hc | hc | hc | hc
    · exact (nh c hc).1
    · subst hc; decide
    · exact (nmi c hc).1
    · subst hc; decide
    · exact (ns c hc).1
  refine ⟨?_, ?_, ?_⟩
  · have e : dy ++ '-' :: (dmo ++ '-' ::
        (dd ++ ' ' :: (dh ++ ':' :: (dmi ++ ':' :: ds)))) =
        (dy ++ '-' :: (dmo ++ '-' :: dd)) ++ ' ' ::
          (dh ++ ':' :: (dmi ++ ':' :: ds)) := by
      simp
    rw [e, splitOnChar_append _ hdate_nospace,
      splitOnChar_eq_single htime_nospace]
  · rw [splitOnChar_append _ (fun c hc => (ny c hc).2.1),
      splitOnChar_append _ (fun c hc => (nmo c hc).2.1),
      splitOnChar_eq_single (fun c hc => (nd c hc).2.1)]
  · rw [splitOnChar_append _ (fun c hc => (nh c hc).2.2),
      splitOnChar_append _ (fun c hc => (nmi c hc).2.2),
      splitOnChar_eq_single (fun c hc => (ns c hc).2.2)]

lemma parseParts_denotes {dy dmo dd dh dmi ds : List Char}
    {y mo d h mi sec : Nat}
    (Hy : DenotesNat dy y) (Hmo : DenotesNat dmo mo) (Hd : DenotesNat dd d)
    (Hh : DenotesNat dh h) (Hmi : DenotesNat dmi mi)
    (Hs : DenotesNat ds sec) :
    parseParts [dy, dmo, dd] [dh, dmi, ds] = some (localMs y mo d h mi sec) := by
  unfold parseParts
  rw [show numAt [dy, dmo, dd] 0 = jsNumber dy from rfl,
    show numAt [dy, dmo, dd] 1 = jsNumber dmo from rfl,
    show numAt [dy, dmo, dd] 2 = jsNumber dd from rfl,
    show numAt [dh, dmi, ds] 0 = jsNumber dh from rfl,
    show numAt [dh, dmi, ds] 1 = jsNumber dmi from rfl,
    show numAt [dh, dmi, ds] 2 = jsNumber ds from rfl,
    jsNumber_denotes Hy, jsNumber_denotes Hmo, jsNumber_denotes Hd,
    jsNumber_denotes Hh, jsNumber_denotes Hmi, jsNumber_denotes Hs]

lemma parsePublishedString_part_split {s : String} {a b : List Char}
    {rest : List (List Char)} (h : splitOnChar ' ' s.data = a :: b :: rest) :
    parsePublishedString_part s =
      .ok (parseParts (splitOnChar '-' a) (splitOnChar ':' b)) := by
  unfold parsePublishedString_part
  rw [h]

lemma jsDateParse_split {s : String} {a b cy cmo cd ch cmi csec : List Char}
    (h1 : splitOnChar ' ' s.data = [a, b])
    (h2 : splitOnChar '-' a = [cy, cmo, cd])
    (h3 : splitOnChar ':' b = [ch, cmi, csec]) :
    jsDateParse s =
      match jsNumber cy, jsNumber cmo, jsNumber cd,
          jsNumber ch, jsNumber cmi, jsNumber csec with
      | some y, some mo, some d, some h, some mi, some sec =>
        some (localMs y mo d h mi sec)
      | _, _, _, _, _, _ => none := by
  unfold jsDateParse
  rw [h1]
  simp only [h2, h3]

/-- **C7.**  A `published` string of the shape `"YYYY-MM-DD hh:mm:ss"` is
parsed as server-local wall-clock time with no timezone conversion: the
partitioned variant splits it into date and time components and builds the
local timestamp directly from the six numeric values, and the unified
variant's host `Date` parse (as modelled) lands on the same local
timestamp; a `published` value that is already a native timestamp is used
as-is by both variants, without re-parsing. -/
theorem c7_string_parsed_as_local_time :
    (∀ (dy dmo dd dh dmi ds : List Char) (y mo d h mi sec : Nat),
      DenotesNat dy y → DenotesNat dmo mo → DenotesNat dd d →
      DenotesNat dh h → DenotesNat dmi mi → DenotesNat ds sec →
      parsePublishedString_part ⟨dy ++ '-' :: (dmo ++ '-' ::
          (dd ++ ' ' :: (dh ++ ':' :: (dmi ++ ':' :: ds))))⟩ =
        .ok (some (localMs y mo d h mi sec)) ∧
      jsDateParse ⟨dy ++ '-' :: (dmo ++ '-' ::
          (dd ++ ' ' :: (dh ++ ':' :: (dmi ++ ':' :: ds))))⟩ =
        some (localMs y mo d h mi sec)) ∧
    (∀ nowMs t, getTimeAgo_part nowMs (.num t) =
      .ok (labelOfDiff_part (nowMs - t))) ∧
    (∀ nowMs t, getTimeAgo_uni nowMs (.num t) = labelOfDiff_uni (nowMs - t)) := by
  refine ⟨?_, fun _ _ => rfl, fun _ _ => rfl⟩
  intro dy dmo dd dh dmi ds y mo d h mi sec Hy Hmo Hd Hh Hmi Hs
  obtain ⟨hsp, hdate, htime⟩ := splitFormat dy dmo dd dh dmi ds
    Hy.2.1 Hmo.2.1 Hd.2.1 Hh.2.1 Hmi.2.1 Hs.2.1
  constructor
  · rw [parsePublishedString_part_split hsp, hdate, htime,
      parseParts_denotes Hy Hmo Hd Hh Hmi Hs]
  · rw [jsDateParse_split hsp hdate htime,
      jsNumber_denotes Hy, jsNumber_denotes Hmo, jsNumber_denotes Hd,
      jsNumber_denotes Hh, jsNumber_denotes Hmi, jsNumber_denotes Hs]

/-- Witness for C7: `"2025-10-29 00:30:57"` parses to the local timestamp
built from its six components, in both variants. -/
theorem c7_string_parsed_as_local_time_witness :
    parsePublishedString_part ⟨"2025".data ++ '-' :: ("10".data ++ '-' ::
        ("29".data ++ ' ' :: ("00".data ++ ':' ::
          ("30".data ++ ':' :: "57".data))))⟩ =
      .ok (some (localMs 2025 10 29 0 30 57)) :=
  ((c7_string_parsed_as_local_time.1 "2025".data "10".data "29".data
    "00".data "30".data "57".data 2025 10 29 0 30 57
    (by decide) (by decide) (by decide) (by decide) (by decide) (by decide)).1)

/-! ### C4: scheduler overlap -/

/-- **C4 counterexample.**  When every cycle takes 40000 ms (a fetch slower
than the period — nothing in the code prevents it, and no reentrancy guard
exists), cycles 1 and 2 are both active at t = 100000 ms: the trigger that
fired at 100000 started a new cycle while cycle 1 was still outstanding. -/
theorem c4_overlap_counterexample :
    cycleActive (fun _ => 40000) 1 100000 ∧
    cycleActive (fun _ => 40000) 2 100000 ∧ (1 : Nat) ≠ 2 := by
  decide

lemma cycleEnd_le_start (dur : Nat → Nat) (hdur : ∀ k, dur k ≤ periodMs)
    {k j : Nat} (hkj : k < j) :
    cycleStart dur k + dur k ≤ cycleStart dur j := by
  cases k with
  | zero =>
    cases j with
    | zero => omega
    | succ j' => simp only [cycleStart, periodMs]; omega
  | succ k' =>
    cases j with
    | zero => omega
    | succ j' =>
      have h1 := hdur (k' + 1)
      simp only [cycleStart, periodMs] at *
      omega

/-- **C4 (amended).**  Cycles cannot overlap *provided every cycle completes
within the 30000 ms period*: under that assumption no two distinct cycles
are active at the same instant.  The code itself has no reentrancy guard,
so a cycle outlasting the period does overlap the next tick's cycle (see
the counterexample). -/
theorem c4_no_overlap_when_cycles_fit :
    ∀ dur : Nat → Nat, (∀ k, dur k ≤ periodMs) →
      ∀ k j t, k ≠ j → ¬(cycleActive dur k t ∧ cycleActive dur j t) := by
  intro dur hdur k j t hne ⟨hk, hj⟩
  rcases Nat.lt_or_ge k j with hlt | hge
  · have := cycleEnd_le_start dur hdur hlt
    exact absurd (lt_of_lt_of_le hk.2 this) (not_lt.mpr hj.1)
  · have hlt : j < k := lt_of_le_of_ne hge (Ne.symm hne)
    have := cycleEnd_le_start dur hdur hlt
    exact absurd (lt_of_lt_of_le hj.2 this) (not_lt.mpr hk.1)

/-- Witness for C4 (amended): with 1000 ms cycles, cycles 0 and 1 do not
overlap at t = 0. -/
theorem c4_no_overlap_when_cycles_fit_witness :
    ¬(cycleActive (fun _ => 1000) 0 0 ∧ cycleActive (fun _ => 1000) 1 0) :=
  c4_no_overlap_when_cycles_fit (fun _ => 1000)
    (fun k => by show (1000 : Nat) ≤ periodMs; decide) 0 1 0 (by decide)
